import Mathlib

/-!
Shallow embedding of the Pytime ObjectIR runtime (textual-IR parser,
execution frame, instruction executor with structured control flow, and
standard-library bridge), translated from the Python sources under src/:
oir_types.py, oir_frame.py, oir_executor.py, oir_parser.py, core.py,
Config.py, Generics.py.  Python dynamic payloads are modelled by the
inductive PyData; Python floats are modelled as exact rationals (IEEE-754
rounding of the host is not modelled); Python exceptions are modelled by
the Except monad with VMError.
-/

set_option maxRecDepth 100000

namespace Pytime

/-! ### String helpers mirroring the Python primitives used by the source.
All are implemented by structural recursion over char lists so that the
kernel can evaluate them on concrete inputs (the core String functions
use well-founded recursion over byte positions and do not reduce). -/

def splitWsAux : List Char → List Char → List String
  | [], acc => if acc.isEmpty then [] else [String.mk acc.reverse]
  | c :: rest, acc =>
    if c.isWhitespace then
      if acc.isEmpty then splitWsAux rest []
      else String.mk acc.reverse :: splitWsAux rest []
    else splitWsAux rest (c :: acc)

/-- Python str.split() with no separator: split on whitespace runs,
dropping empty pieces. -/
def pySplit (s : String) : List String :=
  splitWsAux s.toList []

/-- Strip leading and trailing whitespace from a char list. -/
def charStrip (l : List Char) : List Char :=
  ((l.dropWhile Char.isWhitespace).reverse.dropWhile Char.isWhitespace).reverse

/-- Python str.strip(). -/
def pyStrip (s : String) : String :=
  String.mk (charStrip s.toList)

/-- Whether the second list is an initial segment of the first argument
pattern: leadMatch pat l is true when l begins with pat. -/
def leadMatch : List Char → List Char → Bool
  | [], _ => true
  | _ :: _, [] => false
  | p :: ps, c :: cs => p == c && leadMatch ps cs

/-- Whether pat occurs as a contiguous sublist (Python: pat in s). -/
def subOccurs (pat : List Char) : List Char → Bool
  | [] => pat.isEmpty
  | c :: rest => leadMatch pat (c :: rest) || subOccurs pat rest

/-- Python substring containment: pat in s. -/
def strContainsSub (s pat : String) : Bool :=
  subOccurs pat.toList s.toList

/-- Characters of l before the first occurrence of pat
(Python: line.split(pat)[0] for a pattern that occurs). -/
def takeUntilSub (pat : List Char) : List Char → List Char
  | [] => []
  | c :: rest => if leadMatch pat (c :: rest) then [] else c :: takeUntilSub pat rest

/-- Python line.count(c) for a single character. -/
def countChar (c : Char) (s : String) : Nat :=
  s.toList.countP (fun d => d == c)

def digitsValAux : List Char → Nat → Option Nat
  | [], acc => some acc
  | c :: rest, acc =>
    if c.isDigit then digitsValAux rest (acc * 10 + (c.toNat - 48)) else none

/-- Value of a nonempty all-digit character list. -/
def digitsVal? (l : List Char) : Option Nat :=
  match l with
  | [] => none
  | _ => digitsValAux l 0

/-- Python int(s): strip whitespace, optional sign, decimal digits.
(Underscore separators and other exotic int() forms never appear in the
inputs this repository feeds to int() and are not modelled.) -/
def pyInt? (s : String) : Option Int :=
  match charStrip s.toList with
  | '-' :: rest => (digitsVal? rest).map (fun n => -(n : Int))
  | '+' :: rest => (digitsVal? rest).map (fun n => (n : Int))
  | l => (digitsVal? l).map (fun n => (n : Int))

def decimalVal? (l : List Char) : Option Rat :=
  let intPart := l.takeWhile Char.isDigit
  let rest := l.dropWhile Char.isDigit
  match rest with
  | [] => (digitsVal? intPart).map (fun n => (n : Rat))
  | '.' :: frac =>
    if frac.all Char.isDigit && !(intPart.isEmpty && frac.isEmpty) then
      some (((digitsVal? intPart).getD 0 : Rat)
        + ((digitsVal? frac).getD 0 : Rat) / ((10 : Rat) ^ frac.length))
    else none
  | _ => none

/-- Python float(s) on the decimal forms the repository uses, as an exact
rational (exponent forms and special values are not modelled). -/
def pyFloat? (s : String) : Option Rat :=
  match charStrip s.toList with
  | '-' :: rest => (decimalVal? rest).map Neg.neg
  | '+' :: rest => decimalVal? rest
  | l => decimalVal? l

/-- Code-point lexicographic comparison of char lists, as Python string
comparison. -/
def charListLt : List Char → List Char → Bool
  | [], [] => false
  | [], _ :: _ => true
  | _ :: _, [] => false
  | a :: as, b :: bs => decide (a.toNat < b.toNat) || (a == b && charListLt as bs)

def strLt (x y : String) : Bool := charListLt x.toList y.toList

def strLe (x y : String) : Bool := !(strLt y x)

/-- Drop a literal leading pattern, or fail. -/
def dropLead (pat : String) (l : List Char) : Option (List Char) :=
  if leadMatch pat.toList l then some (l.drop pat.toList.length) else none

/-- Python s.startswith(pat). -/
def strStarts (s pat : String) : Bool :=
  leadMatch pat.toList s.toList

/-- Python s.endswith(pat). -/
def strEnds (s pat : String) : Bool :=
  leadMatch pat.toList.reverse s.toList.reverse

/-- ASCII lowercase of a char (the inputs this repository lowercases are
ASCII). -/
def asciiLower (c : Char) : Char :=
  if 65 ≤ c.toNat ∧ c.toNat ≤ 90 then Char.ofNat (c.toNat + 32) else c

/-- Python s.lower() on ASCII input. -/
def strLower (s : String) : String :=
  String.mk (s.toList.map asciiLower)

def splitOnCharsAux (sep : List Char) : Nat → List Char → List Char → List (List Char)
  | 0, l, acc => [acc.reverse ++ l]
  | _ + 1, [], acc => [acc.reverse]
  | fuel + 1, c :: rest, acc =>
    if leadMatch sep (c :: rest) then
      acc.reverse :: splitOnCharsAux sep fuel ((c :: rest).drop sep.length) []
    else splitOnCharsAux sep fuel rest (c :: acc)

/-- Python s.split(sep) for a nonempty separator: split at each
non-overlapping occurrence, keeping empty pieces. -/
def splitOnStr (s sep : String) : List String :=
  (splitOnCharsAux sep.toList (s.toList.length + 1) s.toList []).map String.mk

/-- Python sep.join(parts). -/
def joinWith (sep : String) : List String → String
  | [] => ""
  | [s] => s
  | s :: rest => s ++ sep ++ joinWith sep rest

def replaceSubAux (pat repl : List Char) : Nat → List Char → List Char
  | 0, l => l
  | _ + 1, [] => []
  | fuel + 1, c :: rest =>
    if leadMatch pat (c :: rest) then
      repl ++ replaceSubAux pat repl fuel ((c :: rest).drop pat.length)
    else c :: replaceSubAux pat repl fuel rest

/-- Python s.replace(pat, repl) for a nonempty pattern. -/
def strReplace (s pat repl : String) : String :=
  if pat.toList.isEmpty then s
  else String.mk (replaceSubAux pat.toList repl.toList s.toList.length s.toList)

/-- Python s[n:] on the char level. -/
def strDropLeft (s : String) (n : Nat) : String :=
  String.mk (s.toList.drop n)

/-- Python s[:-n] on the char level. -/
def strDropRightN (s : String) (n : Nat) : String :=
  String.mk (s.toList.take (s.toList.length - n))

def natDigitsAux : Nat → Nat → List Char
  | 0, _ => []
  | fuel + 1, n =>
    if n < 10 then [Char.ofNat (48 + n)]
    else natDigitsAux fuel (n / 10) ++ [Char.ofNat (48 + n % 10)]

/-- Decimal digits of a natural number. -/
def natToStr (n : Nat) : String :=
  String.mk (natDigitsAux (n + 1) n)

/-- Python str() of an integer. -/
def intToStr : Int → String
  | .ofNat n => natToStr n
  | .negSucc n => "-" ++ natToStr (n + 1)

/-- Numerator and positive denominator view of a Python number. -/
def numFrac : Int ⊕ Rat → Int × Int
  | Sum.inl n => (n, 1)
  | Sum.inr q => (q.num, (q.den : Int))

/-- Numeric equality by cross-multiplication (Python int and float
compare numerically across types). -/
def numEqB (x y : Int ⊕ Rat) : Bool :=
  decide ((numFrac x).1 * (numFrac y).2 = (numFrac y).1 * (numFrac x).2)

def numLtB (x y : Int ⊕ Rat) : Bool :=
  decide ((numFrac x).1 * (numFrac y).2 < (numFrac y).1 * (numFrac x).2)

def numLeB (x y : Int ⊕ Rat) : Bool :=
  decide ((numFrac x).1 * (numFrac y).2 ≤ (numFrac y).1 * (numFrac x).2)

/-! ### Value model (oir_types.py) -/

/-- ValueType enum from oir_types.py. -/
inductive ValueType
  | INT32
  | INT64
  | FLOAT
  | DOUBLE
  | STRING
  | BOOL
  | VOID
  | OBJECT
  deriving DecidableEq, Repr

/-- The canonical textual name of each ValueType variant (the enum value
strings in oir_types.py). -/
def ValueType.textName : ValueType → String
  | .INT32 => "System.Int32"
  | .INT64 => "System.Int64"
  | .FLOAT => "System.Float"
  | .DOUBLE => "System.Double"
  | .STRING => "System.String"
  | .BOOL => "System.Boolean"
  | .VOID => "System.Void"
  | .OBJECT => "System.Object"

/-- Dynamic Python payload of a stack value.  Floats are exact rationals
(host IEEE-754 rounding is not modelled); obj is an opaque host reference
(object identity is not modelled). -/
inductive PyData
  | int : Int → PyData
  | float : Rat → PyData
  | str : String → PyData
  | bool : Bool → PyData
  | pynone : PyData
  | obj : PyData
  deriving DecidableEq, Repr

/-- Value dataclass from oir_types.py: payload plus type tag. -/
structure Value where
  data : PyData
  type_ : ValueType
  deriving DecidableEq, Repr

/-- Python exceptions raised by the runtime (RuntimeError messages from
oir_frame.py / oir_executor.py, plus host-level exceptions such as
TypeError, ValueError, IndexError, ZeroDivisionError). -/
inductive VMError
  | stackUnderflow (methodName : String)
  | undefinedLocal (name : String)
  | undefinedArgument (name : String)
  | vmException (message : String)
  | methodNotFound (name : String)
  | hostError (message : String)
  | outOfFuel
  deriving DecidableEq, Repr

/-- Diagnostic warnings the source prints (modelled structurally). -/
inductive Warning
  | unknownOpcode (opcode : String)
  | unresolvedCall (methodName : String)
  | breakOutsideLoop
  | continueOutsideLoop
  deriving DecidableEq, Repr

/-! ### Python dynamic operations on payloads -/

/-- Python str() of a payload as used for console capture and messages.
str() of a host float is not modelled faithfully (never claim-relevant). -/
def pyStr : PyData → String
  | .int n => intToStr n
  | .float q => intToStr q.num ++ "/" ++ natToStr q.den
  | .str s => s
  | .bool b => if b then "True" else "False"
  | .pynone => "None"
  | .obj => "<object>"

/-- Python truthiness of a payload. -/
def pyTruthy : PyData → Bool
  | .int n => decide (n ≠ 0)
  | .float q => decide (q ≠ 0)
  | .str s => s ≠ ""
  | .bool b => b
  | .pynone => false
  | .obj => true

/-- Numeric view of a payload: Python treats bool as int in arithmetic. -/
def pyNumView : PyData → Option (Int ⊕ Rat)
  | .int n => some (Sum.inl n)
  | .bool b => some (Sum.inl (if b then 1 else 0))
  | .float q => some (Sum.inr q)
  | _ => none

def ratOf : Int ⊕ Rat → Rat
  | Sum.inl n => (n : Rat)
  | Sum.inr q => q

/-- Python numeric binary operation: int op int stays int, anything
involving a float becomes float. -/
def numArith (f : Int → Int → Int) (g : Rat → Rat → Rat) :
    Int ⊕ Rat → Int ⊕ Rat → PyData
  | Sum.inl a, Sum.inl b => .int (f a b)
  | x, y => .float (g (ratOf x) (ratOf y))

/-- Python a + b on payloads (none models TypeError). -/
def pyAdd (a b : PyData) : Option PyData :=
  match a, b with
  | .str x, .str y => some (.str (x ++ y))
  | _, _ =>
    match pyNumView a, pyNumView b with
    | some x, some y => some (numArith (fun i j => i + j) (fun p q => p + q) x y)
    | _, _ => none

/-- Python a - b on payloads. -/
def pySub (a b : PyData) : Option PyData :=
  match pyNumView a, pyNumView b with
  | some x, some y => some (numArith (fun i j => i - j) (fun p q => p - q) x y)
  | _, _ => none

/-- Python a * b on payloads (sequence repetition str * int is not
modelled; it never occurs in this repository). -/
def pyMul (a b : PyData) : Option PyData :=
  match pyNumView a, pyNumView b with
  | some x, some y => some (numArith (fun i j => i * j) (fun p q => p * q) x y)
  | _, _ => none

/-- Python a // b: floor division; none models TypeError and
ZeroDivisionError. -/
def pyFloorDiv (a b : PyData) : Option PyData :=
  match pyNumView a, pyNumView b with
  | some (Sum.inl x), some (Sum.inl y) =>
    if y = 0 then none else some (.int (Int.fdiv x y))
  | some x, some y =>
    if ratOf y = 0 then none
    else some (.float ((Rat.floor (ratOf x / ratOf y) : Int) : Rat))
  | _, _ => none

/-- Python a / b: true division, int / int gives float.  Python raises
ZeroDivisionError even for float zero divisors (none). -/
def pyTrueDiv (a b : PyData) : Option PyData :=
  match pyNumView a, pyNumView b with
  | some x, some y =>
    if ratOf y = 0 then none else some (.float (ratOf x / ratOf y))
  | _, _ => none

/-- Python a % b: floored modulo (string formatting is not modelled). -/
def pyMod (a b : PyData) : Option PyData :=
  match pyNumView a, pyNumView b with
  | some (Sum.inl x), some (Sum.inl y) =>
    if y = 0 then none else some (.int (Int.fmod x y))
  | some x, some y =>
    if ratOf y = 0 then none
    else some (.float (ratOf x - ratOf y * ((Rat.floor (ratOf x / ratOf y) : Int) : Rat)))
  | _, _ => none

/-- Python -a on payloads. -/
def pyNeg (a : PyData) : Option PyData :=
  match pyNumView a with
  | some (Sum.inl x) => some (.int (-x))
  | some (Sum.inr q) => some (.float (-q))
  | none => none

/-- Python a == b on payloads: numeric cross-type equality, otherwise
same-shape equality (object identity collapses to true: never
claim-relevant). -/
def pyEq (a b : PyData) : Bool :=
  match pyNumView a, pyNumView b with
  | some x, some y => numEqB x y
  | _, _ =>
    match a, b with
    | .str x, .str y => x == y
    | .pynone, .pynone => true
    | .obj, .obj => true
    | _, _ => false

/-- Python a < b on payloads (none models TypeError). -/
def pyLt (a b : PyData) : Option Bool :=
  match pyNumView a, pyNumView b with
  | some x, some y => some (numLtB x y)
  | _, _ =>
    match a, b with
    | .str x, .str y => some (strLt x y)
    | _, _ => none

/-- Python a <= b on payloads. -/
def pyLe (a b : PyData) : Option Bool :=
  match pyNumView a, pyNumView b with
  | some x, some y => some (numLeB x y)
  | _, _ =>
    match a, b with
    | .str x, .str y => some (strLe x y)
    | _, _ => none

/-! ### Execution frame (oir_frame.py) -/

/-- Insertion-ordered string map (Python dict restricted to the
operations the source uses). -/
def assocGet {α : Type} (m : List (String × α)) (k : String) : Option α :=
  (m.find? (fun p => p.1 == k)).map (fun p => p.2)

def assocSet {α : Type} (m : List (String × α)) (k : String) (v : α) :
    List (String × α) :=
  if (m.find? (fun p => p.1 == k)).isSome then
    m.map (fun p => if p.1 == k then (k, v) else p)
  else m ++ [(k, v)]

/-- ExecutionFrame from oir_frame.py.  The head of stack is the top
(Python appends and pops at the end of its list). -/
structure ExecutionFrame where
  method_name : String
  stack : List Value := []
  locals : List (String × Value) := []
  args : List (String × Value) := []
  return_value : Option Value := none
  pc : Nat := 0
  deriving DecidableEq, Repr

def ExecutionFrame.push (f : ExecutionFrame) (v : Value) : ExecutionFrame :=
  {f with stack := v :: f.stack}

def ExecutionFrame.pop (f : ExecutionFrame) :
    Except VMError (Value × ExecutionFrame) :=
  match f.stack with
  | [] => .error (.stackUnderflow f.method_name)
  | v :: rest => .ok (v, {f with stack := rest})

def ExecutionFrame.peek (f : ExecutionFrame) : Except VMError Value :=
  match f.stack with
  | [] => .error (.stackUnderflow f.method_name)
  | v :: _ => .ok v

def ExecutionFrame.set_local (f : ExecutionFrame) (name : String) (v : Value) :
    ExecutionFrame :=
  {f with locals := assocSet f.locals name v}

def ExecutionFrame.get_local (f : ExecutionFrame) (name : String) :
    Except VMError Value :=
  match assocGet f.locals name with
  | some v => .ok v
  | none => .error (.undefinedLocal name)

def ExecutionFrame.set_arg (f : ExecutionFrame) (name : String) (v : Value) :
    ExecutionFrame :=
  {f with args := assocSet f.args name v}

def ExecutionFrame.get_arg (f : ExecutionFrame) (name : String) :
    Except VMError Value :=
  match assocGet f.args name with
  | some v => .ok v
  | none => .error (.undefinedArgument name)

/-! ### Executor state (InstructionExecutor of oir_executor.py) -/

/-- Observable executor state: the frame being mutated, the captured
console output lines, the diagnostic warnings printed, and the remaining
host stdin lines (for System.Console.ReadLine). -/
structure ExecState where
  frame : ExecutionFrame
  console_output : List String := []
  warnings : List Warning := []
  stdin : List String := []
  deriving DecidableEq, Repr

/-! ### Standard-library bridge (StandardLibrary of oir_executor.py,
Config.py, Generics.py) -/

/-- Host objects reachable from the preloaded stdlib.  Modelled from the
public surface of Generics.py: namespace "System" maps to the Generics
module, whose Console class has static WriteLine and ReadLine.  Other
host-internal module attributes (imports, helpers, the external
Generictypes module) are not modelled and resolve to none. -/
inductive HostTarget
  | genericsModule
  | consoleClass
  | writeLine
  | readLine
  deriving DecidableEq, Repr

/-- StandardLibrary.resolve on the preloaded configuration
PRELOADED_STD_LIB_MODULES = ["Generics"], namespaces = ["System"]. -/
def stdlibResolve (qualifiedName : String) : Option HostTarget :=
  match splitOnStr qualifiedName "." with
  | ["System"] => some .genericsModule
  | ["System", "Console"] => some .consoleClass
  | ["System", "Console", "WriteLine"] => some .writeLine
  | ["System", "Console", "ReadLine"] => some .readLine
  | _ => none

/-- Python callable(target): modules are not callable; classes and
functions are. -/
def hostCallable : HostTarget → Bool
  | .genericsModule => false
  | .consoleClass => true
  | .writeLine => true
  | .readLine => true

/-- Invoking a resolved host target with raw payload arguments.  WriteLine
prints to the real stdout (not captured here) and returns None; ReadLine
consumes a stdin line and returns a Generictypes.Value, an opaque host
object; Console() constructs an instance.  Wrong arity models Python
TypeError; exhausted stdin models EOFError. -/
def hostInvoke (t : HostTarget) (argList : List PyData) (stdinLines : List String) :
    Except VMError (PyData × List String) :=
  match t, argList with
  | .writeLine, [_] => .ok (.pynone, stdinLines)
  | .writeLine, _ => .error (.hostError "TypeError: WriteLine arity")
  | .readLine, [] =>
    match stdinLines with
    | [] => .error (.hostError "EOFError")
    | _ :: rest => .ok (.obj, rest)
  | .readLine, _ => .error (.hostError "TypeError: ReadLine arity")
  | .consoleClass, [] => .ok (.obj, stdinLines)
  | .consoleClass, _ => .error (.hostError "TypeError: Console arity")
  | .genericsModule, _ => .error (.hostError "TypeError: module is not callable")

/-! ### Instruction-operand parsing (the re.search patterns of
oir_executor.py) -/

/-- Word-or-dot characters, the regex class of call target names. -/
def callNameChar (c : Char) : Bool := c.isAlphanum || c == '_' || c == '.'

/-- Word characters, the regex class backslash-w. -/
def wordChar (c : Char) : Bool := c.isAlphanum || c == '_'

/-- Attempt the pattern of re.search for ldstr at the head of l:
literal ldstr, one or more whitespace, a double-quoted run of
non-quote characters.  Returns the quoted text. -/
def parseLdstrAt (l : List Char) : Option String :=
  match dropLead "ldstr" l with
  | none => none
  | some r1 =>
    let ws := r1.takeWhile Char.isWhitespace
    let r2 := r1.dropWhile Char.isWhitespace
    if ws.isEmpty then none
    else
      match r2 with
      | '"' :: r3 =>
        let content := r3.takeWhile (fun c => c ≠ '"')
        let r4 := r3.dropWhile (fun c => c ≠ '"')
        match r4 with
        | '"' :: _ => some (String.mk content)
        | _ => none
      | _ => none

def findLdstrScan : List Char → Option String
  | [] => none
  | c :: rest =>
    match parseLdstrAt (c :: rest) with
    | some s => some s
    | none => findLdstrScan rest

/-- re.search of the ldstr pattern over the whole instruction. -/
def parseLdstr (instruction : String) : Option String :=
  findLdstrScan instruction.toList

/-- The optional return-type clause of the call pattern: literal ->,
optional whitespace, a nonempty name.  none means the optional group is
not taken (as in the regex). -/
def parseArrowTail (l : List Char) : Option String :=
  match dropLead "->" l with
  | none => none
  | some r1 =>
    let r2 := r1.dropWhile Char.isWhitespace
    let name := r2.takeWhile callNameChar
    if name.isEmpty then none else some (String.mk name)

/-- Attempt the call regex at the head of l: literal call, whitespace,
qualified name, optional whitespace, parenthesised parameter text,
optional whitespace, optional arrow clause.  Returns
(name, parameter text, optional return type). -/
def parseCallAt (l : List Char) : Option (String × String × Option String) :=
  match dropLead "call" l with
  | none => none
  | some r1 =>
    let ws := r1.takeWhile Char.isWhitespace
    let r2 := r1.dropWhile Char.isWhitespace
    if ws.isEmpty then none
    else
      let name := r2.takeWhile callNameChar
      let r3 := r2.dropWhile callNameChar
      if name.isEmpty then none
      else
        let r4 := r3.dropWhile Char.isWhitespace
        match r4 with
        | '(' :: r5 =>
          let params := r5.takeWhile (fun c => c ≠ ')')
          let r6 := r5.dropWhile (fun c => c ≠ ')')
          match r6 with
          | ')' :: r7 =>
            let r8 := r7.dropWhile Char.isWhitespace
            some (String.mk name, String.mk params, parseArrowTail r8)
          | _ => none
        | _ => none

def findCallScan : List Char → Option (String × String × Option String)
  | [] => none
  | c :: rest =>
    match parseCallAt (c :: rest) with
    | some r => some r
    | none => findCallScan rest

/-- re.search of the call pattern over the whole instruction (earliest
match position, as re.search).  Note that a callvirt instruction never
matches: the pattern requires whitespace right after the literal call. -/
def parseCall (instruction : String) : Option (String × String × Option String) :=
  findCallScan instruction.toList

/-- Attempt the condition pattern (keyword, optional whitespace, a
parenthesised run of non-parenthesis characters) at the head of l. -/
def parseCondAt (kw : String) (l : List Char) : Option String :=
  match dropLead kw l with
  | none => none
  | some r1 =>
    let r2 := r1.dropWhile Char.isWhitespace
    match r2 with
    | '(' :: r3 =>
      let content := r3.takeWhile (fun c => c ≠ ')')
      let r4 := r3.dropWhile (fun c => c ≠ ')')
      match r4 with
      | ')' :: _ => some (String.mk content)
      | _ => none
    | _ => none

def findCondScan (kw : String) : List Char → Option String
  | [] => none
  | c :: rest =>
    match parseCondAt kw (c :: rest) with
    | some r => some r
    | none => findCondScan kw rest

/-- re.search of the if/while condition pattern over the instruction. -/
def findCond (kw : String) (s : String) : Option String :=
  findCondScan kw s.toList

/-! ### Call dispatch (_call, _pop_call_arguments, _push_return_value,
_resolve_value_type of oir_executor.py) -/

/-- _resolve_value_type: strip and lowercase, drop a leading system.
segment, map known names, default OBJECT. -/
def resolveValueType (typeName : String) : ValueType :=
  let n0 := strLower (pyStrip typeName)
  let normalized := if strStarts n0 "system." then strDropLeft n0 7 else n0
  if normalized == "int32" then .INT32
  else if normalized == "int64" then .INT64
  else if normalized == "float" then .FLOAT
  else if normalized == "double" then .DOUBLE
  else if normalized == "string" then .STRING
  else if normalized == "bool" then .BOOL
  else if normalized == "object" then .OBJECT
  else .OBJECT

/-- _push_return_value.  The isinstance(result, oir_types.Value) branches
of the source cannot trigger for the modelled stdlib, whose callables
never return oir_types.Value instances, so they are omitted. -/
def pushReturnValue (frame : ExecutionFrame) (result : PyData)
    (returnType : Option String) : ExecutionFrame :=
  match returnType with
  | none =>
    if result == .pynone then frame else frame.push ⟨result, .OBJECT⟩
  | some rt =>
    let normalized := strLower (pyStrip rt)
    if normalized == "void" || normalized == "system.void" then frame
    else frame.push ⟨result, resolveValueType normalized⟩

/-- The pop loop of _pop_call_arguments, producing values in pop order. -/
def popLoop (frame : ExecutionFrame) : Nat → Except VMError (List Value × ExecutionFrame)
  | 0 => .ok ([], frame)
  | n + 1 => do
    let (v, f1) ← frame.pop
    let (vs, f2) ← popLoop f1 n
    .ok (v :: vs, f2)

/-- _pop_call_arguments: pop count values, then reverse so the caller
argument order is restored. -/
def popCallArguments (frame : ExecutionFrame) (count : Nat) :
    Except VMError (List Value × ExecutionFrame) :=
  (popLoop frame count).map (fun p => (p.1.reverse, p.2))

/-- The declared parameter types of a call: split the parenthesised text
on commas, strip each item, drop empty items. -/
def callParamTypes (paramList : String) : List String :=
  ((splitOnStr paramList ",").map pyStrip).filter (fun t => t ≠ "")

/-- _call: match the call pattern (a non-matching instruction, in
particular every callvirt, is a silent no-op), pop one argument per
declared parameter type, resolve through the bridge, warn and stop if
unresolved or not callable, append the WriteLine side channel, invoke,
and push the wrapped return value. -/
def execCall (st : ExecState) (instruction : String) : Except VMError ExecState :=
  match parseCall instruction with
  | none => .ok st
  | some (methodName, paramList, returnType) =>
    let paramTypes := callParamTypes paramList
    match popCallArguments st.frame paramTypes.length with
    | .error e => .error e
    | .ok (argumentValues, frame1) =>
      let st1 : ExecState := {st with frame := frame1}
      match stdlibResolve methodName with
      | none =>
        .ok {st1 with warnings := st1.warnings ++ [.unresolvedCall methodName]}
      | some target =>
        if hostCallable target = false then
          .ok {st1 with warnings := st1.warnings ++ [.unresolvedCall methodName]}
        else
          let pythonArgs := argumentValues.map Value.data
          let st2 : ExecState :=
            if methodName == "System.Console.WriteLine" && !pythonArgs.isEmpty then
              {st1 with console_output :=
                st1.console_output ++ [pyStr (pythonArgs.headD .pynone)]}
            else st1
          match hostInvoke target pythonArgs st2.stdin with
          | .error e => .error e
          | .ok (result, stdinRest) =>
            let st3 : ExecState := {st2 with stdin := stdinRest}
            .ok {st3 with frame := pushReturnValue st3.frame result returnType}

/-! ### Instruction dispatch (execute_instruction of oir_executor.py) -/

/-- Shared shape of the binary arithmetic handlers (_add, _sub, _mul,
_div, _rem): pop b then a, compute a payload from the two values, push
the result tagged with the type of a.  A payload failure is a Python
TypeError (or ZeroDivisionError). -/
def execBinArith (st : ExecState) (payloadOp : Value → Value → Option PyData) :
    Except VMError ExecState := do
  let (b, f1) ← st.frame.pop
  let (a, f2) ← f1.pop
  match payloadOp a b with
  | none => .error (.hostError "TypeError")
  | some r => .ok {st with frame := f2.push ⟨r, a.type_⟩}

/-- Shared shape of the comparison handlers: pop b then a, compare the
payloads, push BOOL. -/
def execCmp (st : ExecState) (cmpOp : PyData → PyData → Option Bool) :
    Except VMError ExecState := do
  let (b, f1) ← st.frame.pop
  let (a, f2) ← f1.pop
  match cmpOp a.data b.data with
  | none => .error (.hostError "TypeError")
  | some r => .ok {st with frame := f2.push ⟨.bool r, .BOOL⟩}

/-- The payload computation of _div: floor division when the type tag of
a is INT32 or INT64, true division otherwise (the operator choice depends
on the tag, not the payload shape). -/
def divPayload (a b : Value) : Option PyData :=
  if a.type_ == .INT32 || a.type_ == .INT64 then pyFloorDiv a.data b.data
  else pyTrueDiv a.data b.data

/-- execute_instruction: tokenize on whitespace, dispatch on the first
token; unknown opcodes warn and do nothing. -/
def executeInstruction (st : ExecState) (instruction : String) :
    Except VMError ExecState :=
  match pySplit instruction with
  | [] => .ok st
  | opcode :: rest =>
    if opcode == "ldstr" then
      match parseLdstr instruction with
      | some s => .ok {st with frame := st.frame.push ⟨.str s, .STRING⟩}
      | none => .ok st
    else if opcode == "ldc.i4" then
      match pyInt? (joinWith " " rest) with
      | some n => .ok {st with frame := st.frame.push ⟨.int n, .INT32⟩}
      | none => .error (.hostError "ValueError")
    else if opcode == "ldc.i8" then
      match pyInt? (joinWith " " rest) with
      | some n => .ok {st with frame := st.frame.push ⟨.int n, .INT64⟩}
      | none => .error (.hostError "ValueError")
    else if opcode == "ldc.r8" then
      match pyFloat? (joinWith " " rest) with
      | some q => .ok {st with frame := st.frame.push ⟨.float q, .DOUBLE⟩}
      | none => .error (.hostError "ValueError")
    else if opcode == "ldnull" then
      .ok {st with frame := st.frame.push ⟨.pynone, .OBJECT⟩}
    else if opcode == "ldc.b.0" then
      .ok {st with frame := st.frame.push ⟨.bool false, .BOOL⟩}
    else if opcode == "ldc.b.1" then
      .ok {st with frame := st.frame.push ⟨.bool true, .BOOL⟩}
    else if opcode == "ldloc" then
      match rest with
      | name :: _ =>
        match st.frame.get_local name with
        | .ok v => .ok {st with frame := st.frame.push v}
        | .error e => .error e
      | [] => .error (.hostError "IndexError")
    else if opcode == "ldarg" then
      match rest with
      | name :: _ =>
        match st.frame.get_arg name with
        | .ok v => .ok {st with frame := st.frame.push v}
        | .error e => .error e
      | [] => .error (.hostError "IndexError")
    else if opcode == "ldcon" then
      let valueStr := joinWith " " rest
      if strStarts valueStr "\"" && strEnds valueStr "\"" then
        .ok {st with frame :=
          st.frame.push ⟨.str (strDropRightN (strDropLeft valueStr 1) 1), .STRING⟩}
      else if strLower valueStr == "true" then
        .ok {st with frame := st.frame.push ⟨.bool true, .BOOL⟩}
      else if strLower valueStr == "false" then
        .ok {st with frame := st.frame.push ⟨.bool false, .BOOL⟩}
      else if strContainsSub valueStr "." then
        match pyFloat? valueStr with
        | some q => .ok {st with frame := st.frame.push ⟨.float q, .DOUBLE⟩}
        | none => .error (.hostError "ValueError")
      else
        match pyInt? valueStr with
        | some n => .ok {st with frame := st.frame.push ⟨.int n, .INT32⟩}
        | none => .ok {st with frame := st.frame.push ⟨.str valueStr, .STRING⟩}
    else if opcode == "ldtrue" then
      .ok {st with frame := st.frame.push ⟨.bool true, .BOOL⟩}
    else if opcode == "ldfalse" then
      .ok {st with frame := st.frame.push ⟨.bool false, .BOOL⟩}
    else if opcode == "stloc" then
      match rest with
      | name :: _ =>
        match st.frame.pop with
        | .ok (v, f1) => .ok {st with frame := f1.set_local name v}
        | .error e => .error e
      | [] => .error (.hostError "IndexError")
    else if opcode == "starg" then
      match rest with
      | name :: _ =>
        match st.frame.pop with
        | .ok (v, f1) => .ok {st with frame := f1.set_arg name v}
        | .error e => .error e
      | [] => .error (.hostError "IndexError")
    else if opcode == "add" then
      execBinArith st (fun a b => pyAdd a.data b.data)
    else if opcode == "sub" then
      execBinArith st (fun a b => pySub a.data b.data)
    else if opcode == "mul" then
      execBinArith st (fun a b => pyMul a.data b.data)
    else if opcode == "div" then
      execBinArith st divPayload
    else if opcode == "rem" then
      execBinArith st (fun a b => pyMod a.data b.data)
    else if opcode == "neg" then
      match st.frame.pop with
      | .error e => .error e
      | .ok (v, f1) =>
        match pyNeg v.data with
        | none => .error (.hostError "TypeError")
        | some r => .ok {st with frame := f1.push ⟨r, v.type_⟩}
    else if opcode == "ceq" then
      execCmp st (fun a b => some (pyEq a b))
    else if opcode == "cgt" then
      execCmp st (fun a b => pyLt b a)
    else if opcode == "clt" then
      execCmp st (fun a b => pyLt a b)
    else if opcode == "cge" then
      execCmp st (fun a b => pyLe b a)
    else if opcode == "cle" then
      execCmp st (fun a b => pyLe a b)
    else if opcode == "cne" then
      execCmp st (fun a b => some (!pyEq a b))
    else if opcode == "dup" then
      match st.frame.peek with
      | .ok v => .ok {st with frame := st.frame.push v}
      | .error e => .error e
    else if opcode == "pop" then
      match st.frame.pop with
      | .ok (_, f1) => .ok {st with frame := f1}
      | .error e => .error e
    else if opcode == "nop" then
      .ok st
    else if opcode == "throw" then
      match st.frame.pop with
      | .ok (ex, _) => .error (.vmException (pyStr ex.data))
      | .error e => .error e
    else if opcode == "local" then
      let line := joinWith " " rest
      if strContainsSub line ":" then
        let name := pyStrip (String.mk (line.toList.takeWhile (fun c => c ≠ ':')))
        let typeName :=
          pyStrip (String.mk ((line.toList.dropWhile (fun c => c ≠ ':')).drop 1))
        let valType := resolveValueType typeName
        let defaultVal : PyData :=
          if valType == .INT32 || valType == .INT64 then .int 0
          else if valType == .FLOAT || valType == .DOUBLE then .float 0
          else if valType == .BOOL then .bool false
          else .pynone
        .ok {st with frame := st.frame.set_local name ⟨defaultVal, valType⟩}
      else .ok st
    else if opcode == "if" then
      .ok st
    else if opcode == "call" || opcode == "callvirt" then
      execCall st instruction
    else if opcode == "ret" then
      match st.frame.stack with
      | [] => .ok st
      | v :: restStack =>
        .ok {st with frame :=
          {st.frame with stack := restStack, return_value := some v}}
    else
      .ok {st with warnings := st.warnings ++ [.unknownOpcode opcode]}

/-! ### Structured control-flow driver (execute_method and helpers of
oir_executor.py) -/

/-- Python count difference of braces in a stripped line. -/
def braceDiff (l : String) : Int :=
  (countChar '\x7b' l : Int) - (countChar '\x7d' l : Int)

/-- Character walk of one line in _scan_matching_brace: increment on an
open brace, decrement on a close brace and stop when the balance reaches
zero right after a decrement.  Sum.inr means the matching brace is on
this line; Sum.inl carries the balance after the line. -/
def scanLineBal : List Char → Int → Int ⊕ Unit
  | [], bal => Sum.inl bal
  | c :: rest, bal =>
    if c == '\x7b' then scanLineBal rest (bal + 1)
    else if c == '\x7d' then
      if bal - 1 = 0 then Sum.inr () else scanLineBal rest (bal - 1)
    else scanLineBal rest bal

def scanBraceAux : List String → Nat → Int → Nat
  | [], idx, _ => idx
  | line :: rest, idx, bal =>
    let l0 := pyStrip line
    let l1 := if strContainsSub l0 "//" then String.mk (takeUntilSub "//".toList l0.toList) else l0
    match scanLineBal l1.toList bal with
    | Sum.inr _ => idx
    | Sum.inl bal2 => scanBraceAux rest (idx + 1) bal2

/-- _scan_matching_brace: from startIndex walk forward, stripping inline
comments, and return the index of the line whose close brace brings the
running balance back to zero (the list length when unbalanced). -/
def scanMatchingBrace (instructions : List String) (startIndex : Nat) : Nat :=
  scanBraceAux (instructions.drop startIndex) startIndex 0

/-- _eval_operand: integer literal, else local, else argument, else 0. -/
def evalOperand (frame : ExecutionFrame) (op : String) : PyData :=
  match pyInt? op with
  | some n => .int n
  | none =>
    match assocGet frame.locals op with
    | some v => v.data
    | none =>
      match assocGet frame.args op with
      | some v => v.data
      | none => .int 0

/-- One comparison from the operator list of _evaluate_condition. -/
def applyCondOp (op : String) (lval rval : PyData) : Except VMError Bool :=
  match (if op == "<" then pyLt lval rval
         else if op == ">" then pyLt rval lval
         else if op == "<=" then pyLe lval rval
         else if op == ">=" then pyLe rval lval
         else if op == "==" then some (pyEq lval rval)
         else some (!pyEq lval rval)) with
  | some b => .ok b
  | none => .error (.hostError "TypeError")

def evalCondLoop (frame : ExecutionFrame) (cond : String) :
    List String → Except VMError Bool
  | [] => .ok false
  | op :: ops =>
    if strContainsSub cond op then
      match splitOnStr cond op with
      | [left, right] =>
        applyCondOp op (evalOperand frame (pyStrip left)) (evalOperand frame (pyStrip right))
      | _ => evalCondLoop frame cond ops
    else evalCondLoop frame cond ops

/-- _evaluate_condition: stack pop (data is True identity test), literal
true/false, or the first binary operator of the fixed list that splits
the condition into exactly two parts; otherwise false. -/
def evaluateCondition (frame : ExecutionFrame) (cond : String) :
    Except VMError (Bool × ExecutionFrame) :=
  if cond == "stack" then
    match frame.pop with
    | .error e => .error e
    | .ok (v, f1) =>
      .ok ((match v.data with | .bool true => true | _ => false), f1)
  else if cond == "true" then .ok (true, frame)
  else if cond == "false" then .ok (false, frame)
  else
    match evalCondLoop frame cond ["<=", ">=", "==", "!=", "<", ">"] with
    | .error e => .error e
    | .ok b => .ok (b, frame)

/-- _handle_if: evaluate the condition (the stack form checks the BOOL
tag and payload truthiness here); when false, jump past the matching
close brace, entering an attached or following else block instead. -/
def handleIf (st : ExecState) (instructions : List String) (currentPc : Nat) :
    Except VMError ExecState :=
  let instruction := instructions.getD currentPc ""
  let condResult : Except VMError (Bool × ExecutionFrame) :=
    match findCond "if" instruction with
    | none => .ok (false, st.frame)
    | some cond0 =>
      let cond := pyStrip cond0
      if cond == "stack" then
        match st.frame.pop with
        | .error e => .error e
        | .ok (v, f1) => .ok (v.type_ == .BOOL && pyTruthy v.data, f1)
      else evaluateCondition st.frame cond
  match condResult with
  | .error e => .error e
  | .ok (conditionTrue, frame1) =>
    let st1 : ExecState := {st with frame := frame1}
    if conditionTrue then .ok st1
    else
      let endIndex := scanMatchingBrace instructions currentPc
      match instructions.get? endIndex with
      | none => .error (.hostError "IndexError")
      | some endLineRaw =>
        let endLine := pyStrip endLineRaw
        if strContainsSub endLine "else" then
          .ok {st1 with frame := {st1.frame with pc := endIndex + 1}}
        else
          let newPc := endIndex + 1
          match instructions.get? newPc with
          | some nextLine =>
            if strStarts (pyStrip nextLine) "else" then
              .ok {st1 with frame := {st1.frame with pc := newPc + 1}}
            else .ok {st1 with frame := {st1.frame with pc := newPc}}
          | none => .ok {st1 with frame := {st1.frame with pc := newPc}}

/-- _handle_while: evaluate the condition; when true push
(current pc, end index) onto the loop stack (head is the top), when
false jump past the matching close brace. -/
def handleWhile (st : ExecState) (instructions : List String) (currentPc : Nat)
    (loopStack : List (Nat × Nat)) :
    Except VMError (ExecState × List (Nat × Nat)) :=
  let instruction := instructions.getD currentPc ""
  let condResult : Except VMError (Bool × ExecutionFrame) :=
    match findCond "while" instruction with
    | none => .ok (false, st.frame)
    | some cond0 => evaluateCondition st.frame (pyStrip cond0)
  match condResult with
  | .error e => .error e
  | .ok (conditionTrue, frame1) =>
    let st1 : ExecState := {st with frame := frame1}
    if conditionTrue then
      let endIndex := scanMatchingBrace instructions currentPc
      .ok (st1, (currentPc, endIndex) :: loopStack)
    else
      let endIndex := scanMatchingBrace instructions currentPc
      .ok ({st1 with frame := {st1.frame with pc := endIndex + 1}}, loopStack)

/-- _handle_close_brace: when the close brace at the current pc is the
end of the top loop entry, jump back to the loop start and pop the entry;
otherwise no effect. -/
def handleCloseBrace (st : ExecState) (currentPc : Nat)
    (loopStack : List (Nat × Nat)) : ExecState × List (Nat × Nat) :=
  match loopStack with
  | [] => (st, loopStack)
  | (startPc, endPc) :: rest =>
    if currentPc == endPc then
      ({st with frame := {st.frame with pc := startPc}}, rest)
    else (st, loopStack)

/-- _skip_block: jump past the matching close brace. -/
def skipBlock (st : ExecState) (instructions : List String) (currentPc : Nat) :
    ExecState :=
  let endIndex := scanMatchingBrace instructions currentPc
  {st with frame := {st.frame with pc := endIndex + 1}}

/-- State of one run of the structured driver: the executor state plus
the loop stack local to execute_method. -/
structure DriverState where
  st : ExecState
  loopStack : List (Nat × Nat) := []
  deriving DecidableEq, Repr

/-- One iteration of the while loop of execute_method, assuming
pc < instructions.length.  The returned Bool is whether the iteration
reaches the bottom return-value check (blank and comment lines skip it
with continue). -/
def driverStep (instructions : List String) (ds : DriverState) :
    Except VMError (DriverState × Bool) :=
  let currentPc := ds.st.frame.pc
  let instruction := instructions.getD currentPc ""
  let ds1 : DriverState :=
    {ds with st := {ds.st with frame := {ds.st.frame with pc := currentPc + 1}}}
  match pySplit (pyStrip instruction) with
  | [] => .ok (ds1, false)
  | opcode :: _ =>
    if strStarts (pyStrip instruction) "//" then .ok (ds1, false)
    else if strStarts opcode "if" then
      match handleIf ds1.st instructions currentPc with
      | .error e => .error e
      | .ok st2 => .ok ({ds1 with st := st2}, true)
    else if strStarts opcode "while" then
      match handleWhile ds1.st instructions currentPc ds1.loopStack with
      | .error e => .error e
      | .ok (st2, ls2) => .ok (⟨st2, ls2⟩, true)
    else if opcode == "break" then
      match ds1.loopStack with
      | [] =>
        .ok ({ds1 with st :=
          {ds1.st with warnings := ds1.st.warnings ++ [.breakOutsideLoop]}}, false)
      | (_, endPc) :: _ =>
        .ok ({ds1 with st :=
          {ds1.st with frame := {ds1.st.frame with pc := endPc + 1}}}, true)
    else if opcode == "continue" then
      match ds1.loopStack with
      | [] =>
        .ok ({ds1 with st :=
          {ds1.st with warnings := ds1.st.warnings ++ [.continueOutsideLoop]}}, false)
      | (startPc, _) :: _ =>
        .ok ({ds1 with st :=
          {ds1.st with frame := {ds1.st.frame with pc := startPc}}}, true)
    else if opcode == "else" || strStarts (pyStrip instruction) "\x7d else" then
      .ok ({ds1 with st := skipBlock ds1.st instructions currentPc}, true)
    else if opcode == "\x7d" then
      let (st2, ls2) := handleCloseBrace ds1.st currentPc ds1.loopStack
      .ok (⟨st2, ls2⟩, true)
    else
      match executeInstruction ds1.st instruction with
      | .error e => .error e
      | .ok st2 => .ok ({ds1 with st := st2}, true)

/-- The while loop of execute_method: run steps until the pc runs off the
end, or an iteration that reaches the bottom check finds return_value
set.  Fuel bounds the number of iterations (the source can loop
forever). -/
def runDriver (fuel : Nat) (instructions : List String) (ds : DriverState) :
    Except VMError ExecState :=
  match fuel with
  | 0 => .error .outOfFuel
  | fuel' + 1 =>
    if ds.st.frame.pc < instructions.length then
      match driverStep instructions ds with
      | .error e => .error e
      | .ok (ds2, checked) =>
        if checked && ds2.st.frame.return_value.isSome then .ok ds2.st
        else runDriver fuel' instructions ds2
    else .ok ds.st

/-- InstructionExecutor.execute_method: reset the pc, start with an empty
loop stack, and run the driver loop. -/
def executeMethod (fuel : Nat) (st : ExecState) (instructions : List String) :
    Except VMError ExecState :=
  runDriver fuel instructions
    ⟨{st with frame := {st.frame with pc := 0}}, []⟩

/-! ### Text parser (oir_parser.py) -/

/-- The inner else-body loop of _parse_if_statement: consume lines while
the else brace count stays positive, appending non-blank non-comment
lines and updating the count.  Returns the accumulated block and the
remaining lines. -/
def parseElseBody (ifBlock : List String) (ebc : Int) :
    List String → List String × List String
  | [] => (ifBlock, [])
  | line :: rest =>
    if ebc > 0 then
      let l := pyStrip line
      if l == "" || strStarts l "//" then parseElseBody ifBlock ebc rest
      else parseElseBody (ifBlock ++ [l]) (ebc + braceDiff l) rest
    else (ifBlock, line :: rest)

/-- The main loop of _parse_if_statement.  A line starting with the if
keyword is appended and, when it holds a brace, the brace count is reset
to its own difference; other lines update the count and are appended;
when the count returns to zero on a line holding a close brace, an
immediately following else line (raw lookahead) and its braced body are
also consumed.  Returns the accumulated block and the remaining lines. -/
def parseIfLoop (ifBlock : List String) (bc : Int) :
    List String → List String × List String
  | [] => (ifBlock, [])
  | line :: rest =>
    let l := pyStrip line
    if l == "" || strStarts l "//" then parseIfLoop ifBlock bc rest
    else if strStarts l "if " then
      let bc2 := if strContainsSub l "\x7b" then braceDiff l else bc
      parseIfLoop (ifBlock ++ [l]) bc2 rest
    else
      let bc2 := bc + braceDiff l
      let ifBlock2 := ifBlock ++ [l]
      if bc2 = 0 && strContainsSub l "\x7d" then
        match rest with
        | [] => (ifBlock2, [])
        | next :: rest2 =>
          if strStarts (pyStrip next) "else" then
            let elseLine := pyStrip next
            let ifBlock3 := ifBlock2 ++ [elseLine]
            if strContainsSub elseLine "\x7b" then
              parseElseBody ifBlock3 (braceDiff elseLine) rest2
            else (ifBlock3, rest2)
          else (ifBlock2, rest)
      else parseIfLoop ifBlock2 bc2 rest

/-- _parse_if_statement, applied to the lines starting at the if line. -/
def parseIfStatement (l : List String) : List String × List String :=
  parseIfLoop [] 0 l

/-- _parse_method_body: consume lines keeping a brace balance that
starts at 1; blank and comment lines are skipped; the line that brings
the balance to 0 ends the body (and is not stored); while the balance is
positive, a line starting with the if keyword hands over to
_parse_if_statement (whose consumed lines do not update this balance)
and other lines are appended.  Returns the stored instruction list (none
when the lines ran out before balancing, in which case the method keeps
its initial empty list) and the remaining lines.  Fuel bounds the
recursion; any fuel at least the number of lines is enough. -/
def parseMethodBodyAux (fuel : Nat) (instrs : List String) (bc : Int) :
    List String → Option (List String) × List String
  | [] => (none, [])
  | line :: rest =>
    match fuel with
    | 0 => (none, line :: rest)
    | fuel' + 1 =>
      let l := pyStrip line
      if l == "" || strStarts l "//" then parseMethodBodyAux fuel' instrs bc rest
      else
        let bc2 := bc + braceDiff l
        if bc2 = 0 then (some instrs, rest)
        else if bc2 > 0 then
          if strStarts l "if " then
            let (ifBlock, rest2) := parseIfStatement (line :: rest)
            parseMethodBodyAux fuel' (instrs ++ ifBlock) bc2 rest2
          else parseMethodBodyAux fuel' (instrs ++ [l]) bc2 rest
        else parseMethodBodyAux fuel' instrs bc2 rest

/-- The class declaration regex: class, whitespace, a word name, optional
whitespace, an open brace (anchored at the start of the stripped line). -/
def parseClassHeader (line : String) : Option String :=
  match dropLead "class" line.toList with
  | none => none
  | some r1 =>
    let ws := r1.takeWhile Char.isWhitespace
    let r2 := r1.dropWhile Char.isWhitespace
    if ws.isEmpty then none
    else
      let name := r2.takeWhile wordChar
      let r3 := (r2.dropWhile wordChar).dropWhile Char.isWhitespace
      if name.isEmpty then none
      else
        match r3 with
        | '\x7b' :: _ => some (String.mk name)
        | _ => none

/-- Repeatedly consume a dot followed by a nonempty word segment (the
starred group of the qualified-name regex).  Fuel bounds the recursion;
the list length is enough. -/
def dropQualSegsAux : Nat → List Char → List Char
  | 0, l => l
  | fuel + 1, l =>
    match l with
    | '.' :: r2 =>
      let seg := r2.takeWhile wordChar
      if seg.isEmpty then l
      else dropQualSegsAux fuel (r2.dropWhile wordChar)
    | _ => l

/-- The qualified-name piece of the method regex: word characters with
dot-separated segments, consumed greedily.  Returns the remainder. -/
def dropQualName (l : List Char) : Option (List Char) :=
  let seg := l.takeWhile wordChar
  if seg.isEmpty then none
  else some (dropQualSegsAux l.length (l.dropWhile wordChar))

/-- The part of the method regex after the closing parenthesis: optional
whitespace, arrow, optional whitespace, qualified return type, optional
whitespace, open brace. -/
def methodTail (l : List Char) : Bool :=
  match dropLead "->" (l.dropWhile Char.isWhitespace) with
  | none => false
  | some r1 =>
    match dropQualName (r1.dropWhile Char.isWhitespace) with
    | none => false
    | some r2 =>
      match r2.dropWhile Char.isWhitespace with
      | '\x7b' :: _ => true
      | _ => false

/-- The lazy argument group of the method regex: try each close
parenthesis in turn as the group terminator until the tail parses. -/
def methodArgsScan : List Char → Bool
  | [] => false
  | c :: rest => (c == ')' && methodTail rest) || methodArgsScan rest

/-- The method declaration regex (anchored at the start of the stripped
line): method, whitespace, word name, optional whitespace, parenthesised
arguments, arrow, qualified return type, open brace.  Returns the method
name. -/
def parseMethodHeader (line : String) : Option String :=
  match dropLead "method" line.toList with
  | none => none
  | some r1 =>
    let ws := r1.takeWhile Char.isWhitespace
    let r2 := r1.dropWhile Char.isWhitespace
    if ws.isEmpty then none
    else
      let name := r2.takeWhile wordChar
      let r3 := (r2.dropWhile wordChar).dropWhile Char.isWhitespace
      if name.isEmpty then none
      else
        match r3 with
        | '(' :: r4 => if methodArgsScan r4 then some (String.mk name) else none
        | _ => none

/-- Parsed tables of ObjectIRParser.  The nested module and class
records of the source carry no claim-relevant data beyond the declared
names, which are kept in declaration order. -/
structure ParserState where
  modules : List String := []
  classes : List String := []
  methods : List (String × List String) := []
  deriving DecidableEq, Repr

/-- The main loop of ObjectIRParser.parse over stripped lines: skip blank
and comment lines, record module and class declarations, and on a method
declaration register an empty instruction list and hand the following
lines to _parse_method_body (storing its result when the body closed).
Fuel bounds the recursion; the number of lines is enough. -/
def parseLines (fuel : Nat) (ps : ParserState) :
    List String → ParserState
  | [] => ps
  | line :: rest =>
    match fuel with
    | 0 => ps
    | fuel' + 1 =>
      let l := pyStrip line
      if l == "" || strStarts l "//" then parseLines fuel' ps rest
      else if strStarts l "module " then
        let name := pyStrip (strReplace l "module " "")
        parseLines fuel' {ps with modules := ps.modules ++ [name]} rest
      else if strStarts l "class " then
        match parseClassHeader l with
        | some cname => parseLines fuel' {ps with classes := ps.classes ++ [cname]} rest
        | none => parseLines fuel' ps rest
      else if strStarts l "method " then
        match parseMethodHeader l with
        | some mname =>
          let ps1 := {ps with methods := assocSet ps.methods mname []}
          let bodyResult := parseMethodBodyAux rest.length [] 1 rest
          let ps2 :=
            match bodyResult.1 with
            | some instrs => {ps1 with methods := assocSet ps1.methods mname instrs}
            | none => ps1
          parseLines fuel' ps2 bodyResult.2
        | none => parseLines fuel' ps rest
      else parseLines fuel' ps rest

/-- ObjectIRParser.parse: strip the content, split into lines, run the
line loop. -/
def parseProgram (content : String) : ParserState :=
  let lines := splitOnStr (pyStrip content) "\n"
  parseLines lines.length {} lines

/-! ### Runtime entry point (core.py) -/

/-- The instruction loop of ObjectIRTextRuntime.execute_method: run
execute_instruction on every line in list order (no early exit when
return_value is set; exceptions propagate). -/
def runInstructionList (st : ExecState) : List String → Except VMError ExecState
  | [] => .ok st
  | i :: rest =>
    match executeInstruction st i with
    | .error e => .error e
    | .ok st2 => runInstructionList st2 rest

/-- ObjectIRTextRuntime.execute_method(name, *args): look the method up
by bare name, build a fresh frame whose args map is empty (the extra
positional arguments extraArgs are accepted and never read), run every
instruction through execute_instruction, and return return_value. -/
def runtimeExecuteMethod (methods : List (String × List String))
    (methodName : String) (extraArgs : List Value) :
    Except VMError (Option Value) :=
  match assocGet methods methodName with
  | none => .error (.methodNotFound methodName)
  | some instructions =>
    let _ := extraArgs
    let frame : ExecutionFrame := {method_name := methodName}
    match runInstructionList {frame := frame} instructions with
    | .error e => .error e
    | .ok st => .ok st.frame.return_value

/-! ### Whole-pipeline runners for the concrete scenarios (run_test of
verify_vm.py and the driver part of reproduce_if.py: parse, take the
Run method, execute through the structured executor). -/

/-- Parse a source text, fetch a method by name, and run it through the
structured executor from a fresh frame.  none when the method is missing
or execution raises. -/
def runProgramMethod (source : String) (methodName : String) (fuel : Nat) :
    Option ExecState :=
  match assocGet (parseProgram source).methods methodName with
  | none => none
  | some instructions =>
    match executeMethod fuel {frame := {method_name := methodName}} instructions with
    | .ok st => some st
    | .error _ => none

/-- get_output of the executor after such a run: the captured console
lines joined by newlines. -/
def runProgramOutput (source : String) (methodName : String) (fuel : Nat) :
    Option String :=
  (runProgramMethod source methodName fuel).map
    (fun st => joinWith "\n" st.console_output)

/-! ### Concrete program texts from the repository -/

/-- The IR program embedded in reproduce_if.py (the code string, line by
line; the leading and trailing blank lines of the Python triple-quoted
string are removed by the strip in parse). -/
def reproduceIfSource : String :=
  joinWith "\n"
    [ "module Test \x7b"
    , "    class Main \x7b"
    , "        method Run() -> void \x7b"
    , "            ldc.i4 1"
    , "            ldc.i4 2"
    , "            ceq"
    , "            if (stack) \x7b"
    , "                ldstr \"True branch executed (Should NOT happen)\""
    , "                call System.Console.WriteLine(string) -> void"
    , "            \x7d else \x7b"
    , "                ldstr \"False branch executed (Should happen)\""
    , "                call System.Console.WriteLine(string) -> void"
    , "            \x7d"
    , "            ldstr \"Done\""
    , "            call System.Console.WriteLine(string) -> void"
    , "        \x7d"
    , "    \x7d"
    , "\x7d" ]

/-- The IR program of test_break_continue in verify_vm.py. -/
def breakContinueSource : String :=
  joinWith "\n"
    [ "    module Test \x7b"
    , "        class Main \x7b"
    , "            method Run() -> void \x7b"
    , "                local i: int32"
    , "                ldc.i4 0"
    , "                stloc i"
    , ""
    , "                while (i < 5) \x7b"
    , "                    ldloc i"
    , "                    ldc.i4 1"
    , "                    add"
    , "                    stloc i"
    , ""
    , "                    ldloc i"
    , "                    ldc.i4 2"
    , "                    ceq"
    , "                    if (stack) \x7b"
    , "                        ldstr \"Skipping 2\""
    , "                        call System.Console.WriteLine(string) -> void"
    , "                        continue"
    , "                    \x7d"
    , ""
    , "                    ldloc i"
    , "                    ldc.i4 4"
    , "                    ceq"
    , "                    if (stack) \x7b"
    , "                        ldstr \"Breaking at 4\""
    , "                        call System.Console.WriteLine(string) -> void"
    , "                        break"
    , "                    \x7d"
    , ""
    , "                    ldloc i"
    , "                    call System.Console.WriteLine(int32) -> void"
    , "                \x7d"
    , "            \x7d"
    , "        \x7d"
    , "    \x7d" ]

/-- A minimal program whose single method body holds an if statement,
used to examine the brace bookkeeping of the parser. -/
def strayBraceSource : String :=
  joinWith "\n"
    [ "module T \x7b"
    , "class C \x7b"
    , "method M() -> void \x7b"
    , "if (stack) \x7b"
    , "nop"
    , "\x7d"
    , "\x7d"
    , "\x7d"
    , "\x7d" ]

/-- Refinement model built from the words of claim C4: consume lines,
skipping blank and comment lines, keep a brace balance that starts at 1
and is updated by the brace count difference of each consumed line; the
body ends exactly at the line that brings the balance to 0 and that
terminator line is not stored.  (Lines consumed at a non-positive
balance are not stored, matching the source on inputs whose balance
never dips below zero; the claim wording does not address them.) -/
def specMethodBodyScan (acc : List String) (bc : Int) :
    List String → Option (List String) × List String
  | [] => (none, [])
  | line :: rest =>
    let l := pyStrip line
    if l == "" || strStarts l "//" then specMethodBodyScan acc bc rest
    else
      let bc2 := bc + braceDiff l
      if bc2 = 0 then (some acc, rest)
      else if bc2 > 0 then specMethodBodyScan (acc ++ [l]) bc2 rest
      else specMethodBodyScan acc bc2 rest

/-! ### Theorems -/

/-- C6: parsing and then executing the reproduce_if.py program through
the structured executor yields captured output exactly
"False branch executed (Should happen)" then "Done": the else branch
runs because the ceq condition is false, and execution continues after
the if/else with the trailing WriteLine. -/
theorem reproduce_if_output :
    runProgramOutput reproduceIfSource "Run" 300 =
      some "False branch executed (Should happen)\nDone" := by
  rfl

/-- C3 (amended): running the break/continue scenario of verify_vm.py
through the structured executor produces captured output exactly
"1", "Skipping 2", "3", "Breaking at 4" joined by newlines: the first
iteration prints 1 before i ever equals 2, so the line for 1 precedes
the skip message. -/
theorem break_continue_output :
    runProgramOutput breakContinueSource "Run" 300 =
      some "1\nSkipping 2\n3\nBreaking at 4" := by
  rfl

/-- C3 counterexample: the same run does not produce the output order
claimed ("Skipping 2" first); the actual output starts with "1". -/
theorem break_continue_output_counterexample :
    runProgramOutput breakContinueSource "Run" 300 =
      some "1\nSkipping 2\n3\nBreaking at 4"
    ∧ some "1\nSkipping 2\n3\nBreaking at 4" ≠
      some "Skipping 2\n1\n3\nBreaking at 4" := by
  exact ⟨rfl, by decide⟩

/-- C1 counterexample: executing div with left operand -7 (popped
second) and right operand 2, both INT32, pushes -4 — the floor quotient,
not the quotient truncated toward zero, which is -3. -/
theorem div_truncation_counterexample :
    executeInstruction
      { frame := { method_name := "m",
                   stack := [⟨.int 2, .INT32⟩, ⟨.int (-7), .INT32⟩] } }
      "div" =
      .ok { frame := { method_name := "m",
                       stack := [⟨.int (-4), .INT32⟩] } }
    ∧ (-4 : Int) ≠ Int.tdiv (-7) 2 := by
  exact ⟨rfl, by decide⟩

/-- C2 counterexample: dispatching break with a non-empty loop stack
sets the pc to end_pc + 1 of the top entry but leaves the loop stack
unchanged — the entry is not popped (a popped stack would be empty
here). -/
theorem break_pop_counterexample :
    driverStep ["break"]
      ⟨{ frame := { method_name := "m" } }, [(3, 26)]⟩ =
      .ok (⟨{ frame := { method_name := "m", pc := 27 } }, [(3, 26)]⟩, true)
    ∧ [(3, 26)] ≠ ([] : List (Nat × Nat)) := by
  exact ⟨rfl, by decide⟩

/-- C5 counterexample: the single-instruction sequence that pushes the
INT32 constant 1 executes without stack underflow and without throw, yet
the driver finishes with a non-empty operand stack and no return
value. -/
theorem stack_empty_counterexample :
    executeMethod 10 { frame := { method_name := "m" } } ["ldc.i4 1"] =
      .ok { frame := { method_name := "m",
                       stack := [⟨.int 1, .INT32⟩], pc := 1 } }
    ∧ ([⟨.int 1, .INT32⟩] : List Value) ≠ [] := by
  exact ⟨rfl, by decide⟩

/-- C7 counterexample: a callvirt instruction declaring one parameter
type leaves the executor state completely unchanged — no value is
popped and no warning is emitted — because the call regex requires
whitespace right after the literal call and so never matches callvirt. -/
theorem callvirt_pop_counterexample :
    executeInstruction
      { frame := { method_name := "m", stack := [⟨.str "x", .STRING⟩] } }
      "callvirt System.Console.WriteLine(string) -> void" =
      .ok { frame := { method_name := "m", stack := [⟨.str "x", .STRING⟩] } }
    ∧ ([⟨.str "x", .STRING⟩] : List Value) ≠
      ([⟨.str "x", .STRING⟩] : List Value).drop 1 := by
  exact ⟨rfl, by decide⟩

/-- C4 counterexample: for the method M of strayBraceSource, whose body
holds an if statement, the stored instruction list ends with two close
braces — the second one is the stray close brace of the method itself —
whereas the balance scan described by the claim stores only one. -/
theorem method_body_stray_brace_counterexample :
    assocGet (parseProgram strayBraceSource).methods "M" =
      some ["if (stack) \x7b", "nop", "\x7d", "\x7d"]
    ∧ (specMethodBodyScan [] 1
        ["if (stack) \x7b", "nop", "\x7d", "\x7d", "\x7d", "\x7d"]).1 =
      some ["if (stack) \x7b", "nop", "\x7d"]
    ∧ some ["if (stack) \x7b", "nop", "\x7d", "\x7d"] ≠
      some ["if (stack) \x7b", "nop", "\x7d"] := by
  exact ⟨rfl, rfl, by decide⟩

/-- Helper: a binary arithmetic handler on a stack b :: a :: rest whose
payload operation succeeds pushes the result tagged with the type of a. -/
theorem execBinArith_push (st : ExecState) (payloadOp : Value → Value → Option PyData)
    (b a : Value) (restStack : List Value) (r : PyData)
    (hstack : st.frame.stack = b :: a :: restStack)
    (hop : payloadOp a b = some r) :
    execBinArith st payloadOp =
      .ok {st with frame := {st.frame with stack := ⟨r, a.type_⟩ :: restStack}} := by
  simp [execBinArith, ExecutionFrame.pop, hstack, hop, ExecutionFrame.push,
    Bind.bind, Except.bind]

/-- C1 (amended): for a left operand (popped second) with tag INT32 or
INT64 and integer payloads, div pushes the floor quotient — Python //
semantics, so -7 div 2 yields -4, not -3 — tagged with the type of the
left operand.  (The FLOAT/DOUBLE case performs the host float division,
whose IEEE-754 rounding this model does not capture.) -/
theorem div_int_floor (st : ExecState) (bv av : Int) (tb ta : ValueType)
    (restStack : List Value)
    (hstack : st.frame.stack = ⟨.int bv, tb⟩ :: ⟨.int av, ta⟩ :: restStack)
    (hta : ta = .INT32 ∨ ta = .INT64) (hb : bv ≠ 0) :
    executeInstruction st "div" =
      .ok {st with frame := {st.frame with
            stack := ⟨.int (Int.fdiv av bv), ta⟩ :: restStack}} := by
  have hdisp : executeInstruction st "div" = execBinArith st divPayload := rfl
  rw [hdisp]
  refine execBinArith_push st divPayload _ _ restStack _ hstack ?_
  rcases hta with h | h <;> subst h <;>
    simp [divPayload, pyFloorDiv, pyNumView, hb]

/-- Witness for C1: 7 div 2 on INT32 operands pushes the INT32 value 3. -/
theorem div_int_floor_witness :
    executeInstruction
      { frame := { method_name := "m", stack := [⟨.int 2, .INT32⟩, ⟨.int 7, .INT32⟩] } }
      "div" =
      .ok { frame := { method_name := "m", stack := [⟨.int 3, .INT32⟩] } } := by
  have h := div_int_floor
    { frame := { method_name := "m", stack := [⟨.int 2, .INT32⟩, ⟨.int 7, .INT32⟩] } }
    2 7 .INT32 .INT32 [] rfl (Or.inl rfl) (by decide)
  exact h

/-- C5 (amended): the operand stack at the end of a run need not be
empty (a lone push remains, see the counterexample); what does hold of
ret is that, executed on a non-empty stack v :: rest, it pops v into
return_value and leaves rest, so a frame whose stack held exactly the
returned value ends with an empty stack. -/
theorem ret_pops_return_value (st : ExecState) (v : Value) (restStack : List Value)
    (hstack : st.frame.stack = v :: restStack) :
    executeInstruction st "ret" =
      .ok {st with frame := {st.frame with stack := restStack, return_value := some v}} := by
  have hdisp : executeInstruction st "ret" = (match st.frame.stack with
    | [] => .ok st
    | v :: restStack =>
      .ok {st with frame := {st.frame with stack := restStack, return_value := some v}}) := rfl
  rw [hdisp, hstack]

/-- Witness for C5: ret on the one-value stack returns that value and
empties the stack. -/
theorem ret_pops_return_value_witness :
    executeInstruction
      { frame := { method_name := "wr", stack := [⟨.int 5, .INT32⟩] } } "ret" =
      .ok { frame := { method_name := "wr",
                       return_value := some ⟨.int 5, .INT32⟩ } } := by
  have h := ret_pops_return_value
    { frame := { method_name := "wr", stack := [⟨.int 5, .INT32⟩] } }
    ⟨.int 5, .INT32⟩ [] rfl
  exact h

/-- Helper: inversion of a successful binary arithmetic handler — the
payload operation succeeded and the result carries the tag of a. -/
theorem execBinArith_ok (st st2 : ExecState) (payloadOp : Value → Value → Option PyData)
    (b a : Value) (restStack : List Value)
    (hstack : st.frame.stack = b :: a :: restStack)
    (hrun : execBinArith st payloadOp = .ok st2) :
    ∃ r, payloadOp a b = some r ∧
      st2 = {st with frame := {st.frame with stack := ⟨r, a.type_⟩ :: restStack}} := by
  unfold execBinArith ExecutionFrame.pop at hrun
  rw [hstack] at hrun
  simp only [Bind.bind, Except.bind] at hrun
  rcases hop : payloadOp a b with _ | r
  · rw [hop] at hrun; cases hrun
  · rw [hop] at hrun
    simp only [ExecutionFrame.push, Except.ok.injEq] at hrun
    exact ⟨r, rfl, hrun.symm⟩

/-- C8: every binary arithmetic instruction (add, sub, mul, div, rem)
that executes successfully on a stack holding at least two values pushes
a result whose type tag is the tag of the left operand in source order —
the value under the top of the stack, popped second. -/
theorem arith_result_tag (inst : String)
    (hinst : inst ∈ ["add", "sub", "mul", "div", "rem"])
    (st st2 : ExecState) (b a : Value) (restStack : List Value)
    (hstack : st.frame.stack = b :: a :: restStack)
    (hrun : executeInstruction st inst = .ok st2) :
    ∃ r, st2.frame.stack = ⟨r, a.type_⟩ :: restStack := by
  have hbin : ∃ op, execBinArith st op = .ok st2 := by
    fin_cases hinst
    · exact ⟨fun x y => pyAdd x.data y.data, hrun⟩
    · exact ⟨fun x y => pySub x.data y.data, hrun⟩
    · exact ⟨fun x y => pyMul x.data y.data, hrun⟩
    · exact ⟨divPayload, hrun⟩
    · exact ⟨fun x y => pyMod x.data y.data, hrun⟩
  rcases hbin with ⟨op, hop⟩
  rcases execBinArith_ok st st2 op b a restStack hstack hop with ⟨r, _, hst2⟩
  exact ⟨r, by rw [hst2]⟩

/-- Witness for C8: add on INT64-under-INT32 pushes an INT64-tagged
result. -/
theorem arith_result_tag_witness :
    ∃ r, ({ frame := { method_name := "wa", stack := [⟨.int 3, .INT64⟩] } }
        : ExecState).frame.stack = [⟨r, ValueType.INT64⟩] :=
  arith_result_tag "add" (by decide)
    { frame := { method_name := "wa", stack := [⟨.int 1, .INT32⟩, ⟨.int 2, .INT64⟩] } }
    { frame := { method_name := "wa", stack := [⟨.int 3, .INT64⟩] } }
    ⟨.int 1, .INT32⟩ ⟨.int 2, .INT64⟩ [] rfl rfl

/-- C2 (amended): dispatching break with a non-empty loop stack sets the
pc to end_pc + 1 of the innermost (top) loop entry and leaves the loop
stack unchanged — the source does not pop the entry. -/
theorem break_keeps_loop_stack (instructions : List String) (ds : DriverState)
    (tl : List String) (s e : Nat) (lsRest : List (Nat × Nat))
    (hinst : pySplit (pyStrip (instructions.getD ds.st.frame.pc "")) = "break" :: tl)
    (hcom : strStarts (pyStrip (instructions.getD ds.st.frame.pc "")) "//" = false)
    (hls : ds.loopStack = (s, e) :: lsRest) :
    driverStep instructions ds =
      .ok ({ds with st := {ds.st with frame := {ds.st.frame with pc := e + 1}}}, true) := by
  simp only [driverStep]
  rw [hinst]
  simp only [hcom, hls]
  rfl

/-- Witness for C2: break at pc 0 with loop entry (0, 5) jumps to 6 and
keeps the entry. -/
theorem break_keeps_loop_stack_witness :
    driverStep ["break"] ⟨{ frame := { method_name := "wb" } }, [(0, 5)]⟩ =
      .ok (⟨{ frame := { method_name := "wb", pc := 6 } }, [(0, 5)]⟩, true) := by
  have h := break_keeps_loop_stack ["break"]
    ⟨{ frame := { method_name := "wb" } }, [(0, 5)]⟩ [] 0 5 [] rfl rfl rfl
  exact h

/-- Helper: popping n values from a stack of length at least n yields
the top n values in pop order and drops them from the frame. -/
theorem popLoop_ok (f : ExecutionFrame) (n : Nat) (hn : n ≤ f.stack.length) :
    popLoop f n = .ok (f.stack.take n, {f with stack := f.stack.drop n}) := by
  induction n generalizing f with
  | zero => rfl
  | succ m ih =>
    rcases hs : f.stack with _ | ⟨v, rest⟩
    · rw [hs] at hn; simp at hn
    · have hrest : m ≤ rest.length := by
        rw [hs] at hn; simpa using hn
      unfold popLoop ExecutionFrame.pop
      rw [hs]
      simp only [Bind.bind, Except.bind]
      rw [ih {f with stack := rest} hrest]
      simp [hs]

/-- Helper: _pop_call_arguments restores caller order by reversing. -/
theorem popCallArguments_ok (f : ExecutionFrame) (n : Nat) (hn : n ≤ f.stack.length) :
    popCallArguments f n = .ok ((f.stack.take n).reverse, {f with stack := f.stack.drop n}) := by
  unfold popCallArguments
  rw [popLoop_ok f n hn]
  rfl

/-- Helper: a matched call whose target does not resolve to a callable
pops one value per declared parameter type, emits the warning, and
changes nothing else. -/
theorem execCall_unresolved (st : ExecState) (inst name paramList : String)
    (rty : Option String)
    (hparse : parseCall inst = some (name, paramList, rty))
    (hres : ∀ t, stdlibResolve name = some t → hostCallable t = false)
    (hlen : (callParamTypes paramList).length ≤ st.frame.stack.length) :
    execCall st inst =
      .ok {st with
        frame := {st.frame with
          stack := st.frame.stack.drop (callParamTypes paramList).length},
        warnings := st.warnings ++ [.unresolvedCall name]} := by
  unfold execCall
  rw [hparse]
  simp only []
  rw [popCallArguments_ok st.frame _ hlen]
  rcases hr : stdlibResolve name with _ | t
  · simp only [hr]
  · have hc := hres t hr
    simp [hr, hc]

/-- C7 (amended): for every call or callvirt instruction that matches
the call pattern with n declared parameter types, exactly n values are
popped before resolution; when the name does not resolve or the target
is not invokable, a warning is emitted and the frame is otherwise
untouched (nothing pushed, locals and args unchanged, arguments
consumed).  A callvirt instruction, however, never matches the pattern —
the regex demands whitespace right after the literal call — so it pops
nothing, changes nothing, and emits no warning. -/
theorem call_unresolved_behavior :
    (∀ (st : ExecState) (inst opcode name paramList : String) (tl : List String)
       (rty : Option String),
       pySplit inst = opcode :: tl →
       opcode = "call" ∨ opcode = "callvirt" →
       parseCall inst = some (name, paramList, rty) →
       (∀ t, stdlibResolve name = some t → hostCallable t = false) →
       (callParamTypes paramList).length ≤ st.frame.stack.length →
       executeInstruction st inst =
         .ok {st with
           frame := {st.frame with
             stack := st.frame.stack.drop (callParamTypes paramList).length},
           warnings := st.warnings ++ [.unresolvedCall name]})
    ∧ (∀ (st : ExecState) (inst : String) (tl : List String),
       pySplit inst = "callvirt" :: tl →
       parseCall inst = none →
       executeInstruction st inst = .ok st) := by
  constructor
  · intro st inst opcode name paramList tl rty htok hop hparse hres hlen
    have hdisp : executeInstruction st inst = execCall st inst := by
      rcases hop with rfl | rfl <;> (unfold executeInstruction; rw [htok]; rfl)
    rw [hdisp]
    exact execCall_unresolved st inst name paramList rty hparse hres hlen
  · intro st inst tl htok hparse
    have hdisp : executeInstruction st inst = execCall st inst := by
      unfold executeInstruction; rw [htok]; rfl
    rw [hdisp]
    unfold execCall
    rw [hparse]

/-- Witness for C7: an unresolvable call with one declared parameter
type consumes the single stack value and warns; an equivalent callvirt
leaves the state untouched. -/
theorem call_unresolved_behavior_witness :
    executeInstruction
      { frame := { method_name := "wc", stack := [⟨.int 9, .INT32⟩] } }
      "call Foo.Bar(string) -> void" =
      .ok { frame := { method_name := "wc", stack := [] },
            warnings := [.unresolvedCall "Foo.Bar"] }
    ∧ executeInstruction { frame := { method_name := "wc" } }
        "callvirt Foo.Bar(string) -> void" =
      .ok { frame := { method_name := "wc" } } := by
  constructor
  · have h := call_unresolved_behavior.1
      { frame := { method_name := "wc", stack := [⟨.int 9, .INT32⟩] } }
      "call Foo.Bar(string) -> void" "call" "Foo.Bar" "string"
      ["Foo.Bar(string)", "->", "void"] (some "void")
      rfl (Or.inl rfl) rfl (fun t h => nomatch h) (by decide)
    exact h
  · exact call_unresolved_behavior.2 { frame := { method_name := "wc" } }
      "callvirt Foo.Bar(string) -> void" ["Foo.Bar(string)", "->", "void"] rfl rfl

/-- C9: the public runtime entry point discards its extra positional
arguments — execute_method builds the frame with an empty args map
whatever the caller supplied — so ldarg raises the undefined-argument
fatal error; in particular a method whose first instruction is an ldarg
fails with that error for every argument list. -/
theorem runtime_args_discarded :
    (∀ (methods : List (String × List String)) (methodName : String)
       (extraArgs : List Value),
       runtimeExecuteMethod methods methodName extraArgs =
         runtimeExecuteMethod methods methodName [])
    ∧ (∀ (st : ExecState) (inst argName : String) (tl : List String),
       pySplit inst = "ldarg" :: argName :: tl →
       st.frame.args = [] →
       executeInstruction st inst = .error (.undefinedArgument argName))
    ∧ (∀ (methods : List (String × List String)) (methodName inst argName : String)
       (tl restInstrs : List String) (extraArgs : List Value),
       assocGet methods methodName = some (inst :: restInstrs) →
       pySplit inst = "ldarg" :: argName :: tl →
       runtimeExecuteMethod methods methodName extraArgs =
         .error (.undefinedArgument argName)) := by
  have hldarg : ∀ (st : ExecState) (inst argName : String) (tl : List String),
      pySplit inst = "ldarg" :: argName :: tl →
      st.frame.args = [] →
      executeInstruction st inst = .error (.undefinedArgument argName) := by
    intro st inst argName tl htok hargs
    unfold executeInstruction
    rw [htok]
    simp [ExecutionFrame.get_arg, hargs, assocGet]
  refine ⟨fun methods n args => rfl, hldarg, ?_⟩
  intro methods methodName inst argName tl restInstrs extraArgs hlook htok
  unfold runtimeExecuteMethod
  rw [hlook]
  simp only [runInstructionList]
  rw [hldarg _ inst argName tl htok rfl]

/-- Witness for C9: a method made of the single instruction ldarg x,
called with one positional argument, still fails with the
undefined-argument error. -/
theorem runtime_args_discarded_witness :
    runtimeExecuteMethod [("M", ["ldarg x"])] "M" [⟨.int 1, .INT32⟩] =
      .error (.undefinedArgument "x") :=
  runtime_args_discarded.2.2 [("M", ["ldarg x"])] "M" "ldarg x" "x" [] []
    [⟨.int 1, .INT32⟩] rfl rfl

/-- C10: through execute_instruction — the only dispatch the public
runtime entry point uses, applied to each line in list order — an if
line leaves the state unchanged, and while, else, close-brace, break,
and continue lines fall to the unknown-opcode warning branch with no
effect on the frame; the structured semantics live only in the driver
executeMethod. -/
theorem runtime_dispatch_no_structured_flow :
    (∀ (st : ExecState) (inst : String) (tl : List String),
       pySplit inst = "if" :: tl → executeInstruction st inst = .ok st)
    ∧ (∀ (st : ExecState) (inst opcode : String) (tl : List String),
       pySplit inst = opcode :: tl →
       opcode ∈ ["while", "else", "\x7d", "break", "continue"] →
       executeInstruction st inst =
         .ok {st with warnings := st.warnings ++ [.unknownOpcode opcode]}) := by
  constructor
  · intro st inst tl htok
    unfold executeInstruction; rw [htok]; rfl
  · intro st inst opcode tl htok hmem
    fin_cases hmem <;> (unfold executeInstruction; rw [htok]; rfl)

/-- Witness for C10: an if header line is a no-op and a while header
line draws the unknown-opcode warning. -/
theorem runtime_dispatch_no_structured_flow_witness :
    executeInstruction { frame := { method_name := "wd" } } "if (stack) \x7b" =
      .ok { frame := { method_name := "wd" } }
    ∧ executeInstruction { frame := { method_name := "wd" } } "while (i < 3) \x7b" =
      .ok { frame := { method_name := "wd" }, warnings := [.unknownOpcode "while"] } := by
  constructor
  · exact runtime_dispatch_no_structured_flow.1
      { frame := { method_name := "wd" } } "if (stack) \x7b" ["(stack)", "\x7b"] rfl
  · exact runtime_dispatch_no_structured_flow.2
      { frame := { method_name := "wd" } } "while (i < 3) \x7b" "while"
      ["(i", "<", "3)", "\x7b"] rfl (by decide)

/-- C4 (amended): for every method declaration whose following lines
never start with the if keyword, the parser collects the body exactly as
the claim describes — consuming non-empty, non-comment lines while a
brace balance starts at 1 and is updated per consumed line, ending at
the line that brings the balance to 0, which is not stored.  (When a
body line does start with if, the sub-parser consumes the block without
updating this balance, and the stray close braces of the counterexample
appear.) -/
theorem method_body_balance_no_if (lines : List String) (fuel : Nat)
    (acc : List String) (bc : Int)
    (hfuel : lines.length ≤ fuel)
    (hnoif : ∀ l ∈ lines, strStarts (pyStrip l) "if " = false) :
    parseMethodBodyAux fuel acc bc lines = specMethodBodyScan acc bc lines := by
  induction lines generalizing fuel acc bc with
  | nil => cases fuel <;> rfl
  | cons line rest ih =>
    rcases fuel with _ | fuel'
    · exact absurd hfuel (by simp)
    · have hline := hnoif line (by simp)
      have hrest : ∀ l ∈ rest, strStarts (pyStrip l) "if " = false :=
        fun l hl => hnoif l (List.mem_cons_of_mem _ hl)
      have hfuel' : rest.length ≤ fuel' := Nat.le_of_succ_le_succ hfuel
      simp only [parseMethodBodyAux, specMethodBodyScan]
      cases hb : (pyStrip line == "" || strStarts (pyStrip line) "//") with
      | true =>
        simp only [hb, if_true]
        exact ih fuel' acc bc hfuel' hrest
      | false =>
        simp only [hb, Bool.false_eq_true, if_false]
        by_cases h2 : bc + braceDiff (pyStrip line) = 0
        · simp only [h2, if_pos, if_true]
        · simp only [h2, if_false, if_neg]
          by_cases h3 : bc + braceDiff (pyStrip line) > 0
          · simp only [h3, if_pos, if_true, hline, Bool.false_eq_true, if_false]
            exact ih fuel' (acc ++ [pyStrip line]) _ hfuel' hrest
          · simp only [h3, if_neg, if_false]
            exact ih fuel' acc _ hfuel' hrest

/-- Witness for C4: a two-line body without if statements parses to the
same result as the balance scan of the claim. -/
theorem method_body_balance_no_if_witness :
    parseMethodBodyAux 2 [] 1 ["nop", "\x7d"] = specMethodBodyScan [] 1 ["nop", "\x7d"] :=
  method_body_balance_no_if ["nop", "\x7d"] 2 [] 1 (by decide) (by decide)

end Pytime
